import Mathlib

/-!
Shallow embedding of the data-explorer dashboard (src/app.py, src/munge.py).

User documents are nested dictionaries; we model the per-user `recipes` and
`skills` mappings as association lists, the `cookedBefore` / `inprogress` /
`score` fields as optional values (absent key = `none`), and a column cell
that may be missing from a document (a NaN in the dataframe) as an
`Option` at the cell level.  Python code that raises is modelled with
`Except String`.
-/

structure RecipeEntry where
  cookedBefore : Option Bool
  inprogress : Option Bool
deriving DecidableEq

abbrev RecipesDict := List (String × RecipeEntry)

structure SkillEntry where
  score : Option Nat
deriving DecidableEq

abbrev SkillsDict := List (String × SkillEntry)

/-- Python truthiness of an optional boolean field value: `None` and `False`
are falsy, `True` is truthy. -/
def truthy : Option Bool → Bool
  | some b => b
  | none => false

/-- `any(dz.valmap(lambda d: d.get("cookedBefore"), d).values())`
(app.py lines 107, 111). -/
def any_cooked_before (d : RecipesDict) : Bool :=
  (d.map (fun p => p.2.cookedBefore)).any truthy

/-- `any(dz.valmap(lambda d: d.get("inprogress"), d).values())`
(app.py line 108). -/
def any_inprog (d : RecipesDict) : Bool :=
  (d.map (fun p => p.2.inprogress)).any truthy

/-- `get_user_recipe_status` (app.py lines 103-112).  The Python function has
no else branch, so a non-empty dict with no truthy flag falls through and
returns `None`, modelled as `none`. -/
def get_user_recipe_status (d : RecipesDict) : Option String :=
  if d = [] then some "Never entered cook mode"
  else if !(any_cooked_before d) && any_inprog d then
    some "Recipe in progress, but never completed any"
  else if any_cooked_before d then some "Completed at least 1 recipe"
  else none

/-- One Python dict assignment `d[k] = v`: overwrite the binding in place if
the key exists, else append it. -/
def pyDictUpdate {α β : Type} [DecidableEq α] (d : List (α × β)) (k : α) (v : β) :
    List (α × β) :=
  if (d.map Prod.fst).contains k then
    d.map (fun p => if p.1 = k then (p.1, v) else p)
  else d ++ [(k, v)]

/-- `dict(zip(ks, vs))`-style construction: bindings are inserted left to
right, a later binding for the same key overwrites the earlier one. -/
def pyDictOfList {α β : Type} [DecidableEq α] (l : List (α × β)) : List (α × β) :=
  l.foldl (fun d p => pyDictUpdate d p.1 p.2) []

/-- `toolz.itertoolz.frequencies`: a dict of counts built by `d[item] += 1`
over the sequence (with default 0). -/
def frequencies {α : Type} [DecidableEq α] (l : List α) : List (α × Nat) :=
  l.foldl (fun d x => pyDictUpdate d x (((d.lookup x).getD 0) + 1)) []

/-- `pandas.Series.value_counts()` on a column of optional labels: `None`
cells are dropped (dropna is the default), then each label is counted. -/
def value_counts (l : List (Option String)) : List (String × Nat) :=
  frequencies (l.filterMap id)

/-- `pandas.Series.apply f` on a column whose cells may be missing (NaN):
applying the dict-consuming `f` to a NaN cell raises (`valmap` / `.keys()`
on a float has no `keys` attribute). -/
def applyCells {α β : Type} (f : α → β) : List (Option α) → Except String (List β)
  | [] => .ok []
  | none :: _ => .error "AttributeError"
  | some a :: rest => (applyCells f rest).map (fun bs => f a :: bs)

/-- `plot_cooked_or_viewed_recipes` (app.py lines 100-119): the counts that
feed the bar chart, `df.recipes.apply(get_user_recipe_status).value_counts()`. -/
def plot_cooked_or_viewed_recipes (cells : List (Option RecipesDict)) :
    Except String (List (String × Nat)) :=
  (applyCells get_user_recipe_status cells).map value_counts

/-- `count_recipes` (app.py lines 123-126): `sum(dz.valmap(lambda d:
d.get("cookedBefore", False), d).values())`, i.e. the number of truthy
`cookedBefore` flags (Python sums booleans as 0/1). -/
def count_recipes (d : RecipesDict) : Nat :=
  if d = [] then 0
  else (d.map (fun p => if truthy p.2.cookedBefore then 1 else 0)).sum

/-- `Series.drop(0, axis=0)` (app.py line 128): removes the index label 0 and
raises a KeyError when that label is absent (pandas raises by default). -/
def dropLabel0 (l : List (Nat × Nat)) : Except String (List (Nat × Nat)) :=
  if (l.map Prod.fst).contains 0 then .ok (l.filter (fun p => p.1 != 0))
  else .error "KeyError"

/-- `plot_num_completed_recipes` (app.py lines 122-133): per-user completed
counts, `value_counts()`, then `.drop(0, axis=0)`. -/
def plot_num_completed_recipes (cells : List (Option RecipesDict)) :
    Except String (List (Nat × Nat)) :=
  match applyCells count_recipes cells with
  | .error e => .error e
  | .ok recipe_counts => dropLabel0 (frequencies recipe_counts)

/-- `plot_skill_hist` (app.py lines 151-161): per-user lists of skill scores
(`d.get("score")`, so a score-less skill contributes `None`), flattened and
counted, each count divided by the total number of scores. -/
def plot_skill_hist (cells : List (Option SkillsDict)) :
    Except String (List (Option Nat × ℚ)) :=
  match applyCells (fun d => d.map (fun p => p.2.score)) cells with
  | .error e => .error e
  | .ok skill_levels =>
    let skill_counts := frequencies skill_levels.flatten
    let num_skills := (skill_counts.map Prod.snd).sum
    .ok (skill_counts.map (fun p => (p.1, (p.2 : ℚ) / (num_skills : ℚ))))

/-- A user document streamed from the users collection; only the uid field
matters to the snapshot logic (`user_data[doc["uid"]] = doc`). -/
structure UserDoc where
  uid : String
deriving DecidableEq

/-- `pull_latest_data` (app.py lines 37-64).  Inputs: the `dev` flag (the
deployed app sets `dev = False`, app.py line 18), the contents of the dev
cache file `user_data.hkl` if it exists, and the streamed user documents.
Returns the user mapping together with the list of (filename, contents)
pairs the call writes to disk: nothing when `dev` is false, the fixed-name
`user_data.hkl` cache when `dev` is true and no cache existed. -/
def pull_latest_data (dev : Bool) (cacheFile : Option (List (String × UserDoc)))
    (stream : List UserDoc) :
    (List (String × UserDoc)) × List (String × List (String × UserDoc)) :=
  if dev && cacheFile.isSome then (cacheFile.getD [], [])
  else
    (pyDictOfList (stream.map (fun u => (u.uid, u))),
     if dev then
       [("user_data.hkl", pyDictOfList (stream.map (fun u => (u.uid, u))))]
     else [])

/-- Running cumulative sum of a numeric column (`Series.cumsum`), carrying
the sum accumulated so far. -/
def cumsumFrom (acc : Nat) : List Nat → List Nat
  | [] => []
  | x :: xs => (acc + x) :: cumsumFrom (acc + x) xs

/-- `plot_signups` (app.py lines 164-171): assign a constant counter of 1 to
every row, sort the rows ascending by creation date, take the cumulative sum
of the counter, and chart date against running count. -/
def plot_signups (creationDates : List Nat) : List (Nat × Nat) :=
  (creationDates.mergeSort (fun a b => decide (a ≤ b))).zip
    (cumsumFrom 0
      (List.replicate (creationDates.mergeSort (fun a b => decide (a ≤ b))).length 1))

/-- `most_popular_recipes` (app.py lines 187-213): frequencies of recipe ids
across all users, each id resolved to its display name through the content
catalog, then re-keyed by name with `dict(zip(recipe_names,
recipe_counts.values()))`. -/
def most_popular_recipes (catalog : String → String) (cells : List RecipesDict) :
    List (String × Nat) :=
  pyDictOfList
    (((frequencies (cells.map (fun d => d.map Prod.fst)).flatten).map
        (fun p => catalog p.1)).zip
      ((frequencies (cells.map (fun d => d.map Prod.fst)).flatten).map Prod.snd))

/-- `most_popular_skills` (app.py lines 216-246): identical shape to
`most_popular_recipes`, over the skills column. -/
def most_popular_skills (catalog : String → String) (cells : List SkillsDict) :
    List (String × Nat) :=
  pyDictOfList
    (((frequencies (cells.map (fun d => d.map Prod.fst)).flatten).map
        (fun p => catalog p.1)).zip
      ((frequencies (cells.map (fun d => d.map Prod.fst)).flatten).map Prod.snd))

/-! Association-list and pipeline lemmas. -/

theorem mem_keys_pyDictUpdate {α β : Type} [DecidableEq α]
    (d : List (α × β)) (k : α) (v : β) (x : α) :
    x ∈ (pyDictUpdate d k v).map Prod.fst ↔ x ∈ d.map Prod.fst ∨ x = k := by
  have hmap : (d.map (fun p => if p.1 = k then (p.1, v) else p)).map Prod.fst
      = d.map Prod.fst := by
    rw [List.map_map]
    refine List.map_congr_left (fun p _ => ?_)
    by_cases hc : p.1 = k <;> simp [hc]
  unfold pyDictUpdate
  split
  case isTrue h =>
    have hk : k ∈ d.map Prod.fst := List.elem_iff.mp h
    rw [hmap]
    exact (or_iff_left_iff_imp.mpr (fun hx => hx ▸ hk)).symm
  case isFalse h => simp

theorem snd_pos_pyDictUpdate {α : Type} [DecidableEq α]
    (d : List (α × Nat)) (k : α) (v : Nat) (hd : ∀ p ∈ d, 1 ≤ p.2) (hv : 1 ≤ v) :
    ∀ p ∈ pyDictUpdate d k v, 1 ≤ p.2 := by
  intro p hp
  unfold pyDictUpdate at hp
  split at hp
  · obtain ⟨q, hq, hqp⟩ := List.mem_map.mp hp
    by_cases hc : q.1 = k <;> simp [hc] at hqp <;> subst hqp
    · exact hv
    · exact hd q hq
  · rcases List.mem_append.mp hp with h | h
    · exact hd p h
    · simp at h; subst h; exact hv

theorem mem_keys_frequencies {α : Type} [DecidableEq α] (l : List α) (x : α) :
    x ∈ (frequencies l).map Prod.fst ↔ x ∈ l := by
  suffices h : ∀ (acc : List (α × Nat)),
      x ∈ (l.foldl (fun d y => pyDictUpdate d y (((d.lookup y).getD 0) + 1)) acc).map
        Prod.fst ↔ x ∈ acc.map Prod.fst ∨ x ∈ l by
    simpa [frequencies] using h []
  induction l with
  | nil => simp
  | cons y ys ih =>
    intro acc
    simp only [List.foldl_cons, ih, mem_keys_pyDictUpdate, List.mem_cons]
    tauto

theorem frequencies_snd_pos {α : Type} [DecidableEq α] (l : List α) :
    ∀ p ∈ frequencies l, 1 ≤ p.2 := by
  suffices h : ∀ (acc : List (α × Nat)), (∀ p ∈ acc, 1 ≤ p.2) →
      ∀ p ∈ l.foldl (fun d y => pyDictUpdate d y (((d.lookup y).getD 0) + 1)) acc, 1 ≤ p.2 by
    exact h [] (by simp)
  induction l with
  | nil => intro acc hacc; simpa using hacc
  | cons y ys ih =>
    intro acc hacc
    exact ih _ (snd_pos_pyDictUpdate _ _ _ hacc (Nat.le_add_left 1 _))

theorem applyCells_map_some {α β : Type} (f : α → β) (rows : List α) :
    applyCells f (rows.map some) = .ok (rows.map f) := by
  induction rows with
  | nil => rfl
  | cons r rs ih => simp [applyCells, ih, Except.map]

theorem applyCells_ok_mem {α β : Type} (f : α → β) {cells : List (Option α)}
    {bs : List β} {a : α} (hok : applyCells f cells = .ok bs)
    (ha : some a ∈ cells) : f a ∈ bs := by
  induction cells generalizing bs with
  | nil => simp at ha
  | cons c cs ih =>
    match c, ha with
    | none, _ => simp [applyCells] at hok
    | some x, ha =>
      rw [applyCells] at hok
      cases hrest : applyCells f cs with
      | error e => rw [hrest] at hok; simp [Except.map] at hok
      | ok bs2 =>
        rw [hrest] at hok
        simp only [Except.map, Except.ok.injEq] at hok
        subst hok
        rcases List.mem_cons.mp ha with heq | hmem
        · simp at heq; subst heq; exact List.mem_cons_self _ _
        · exact List.mem_cons_of_mem _ (ih hrest hmem)

theorem keys_map_replace {α β : Type} [DecidableEq α]
    (d : List (α × β)) (k : α) (v : β) :
    ((d.map (fun p => if p.1 = k then (p.1, v) else p)).map Prod.fst)
      = d.map Prod.fst := by
  rw [List.map_map]
  refine List.map_congr_left (fun p _ => ?_)
  by_cases hc : p.1 = k <;> simp [hc]

theorem nodup_keys_pyDictUpdate {α β : Type} [DecidableEq α]
    (d : List (α × β)) (k : α) (v : β) (h : (d.map Prod.fst).Nodup) :
    ((pyDictUpdate d k v).map Prod.fst).Nodup := by
  unfold pyDictUpdate
  split
  case isTrue hc => rw [keys_map_replace]; exact h
  case isFalse hc =>
    rw [List.map_append]
    simp only [List.map_cons, List.map_nil]
    rw [List.nodup_append]
    refine ⟨h, List.nodup_singleton k, ?_⟩
    intro x hx hxk
    simp only [List.mem_singleton] at hxk
    subst hxk
    exact hc (List.elem_iff.mpr hx)

theorem mem_keys_pyDictOfList {α β : Type} [DecidableEq α]
    (l : List (α × β)) (x : α) :
    x ∈ (pyDictOfList l).map Prod.fst ↔ x ∈ l.map Prod.fst := by
  suffices h : ∀ (acc : List (α × β)),
      x ∈ ((l.foldl (fun d p => pyDictUpdate d p.1 p.2) acc).map Prod.fst)
        ↔ x ∈ acc.map Prod.fst ∨ x ∈ l.map Prod.fst by
    simpa [pyDictOfList] using h []
  induction l with
  | nil => simp
  | cons p ps ih =>
    intro acc
    simp only [List.foldl_cons, ih, mem_keys_pyDictUpdate, List.map_cons,
      List.mem_cons]
    tauto

theorem nodup_keys_pyDictOfList {α β : Type} [DecidableEq α]
    (l : List (α × β)) : ((pyDictOfList l).map Prod.fst).Nodup := by
  suffices h : ∀ (acc : List (α × β)), (acc.map Prod.fst).Nodup →
      ((l.foldl (fun d p => pyDictUpdate d p.1 p.2) acc).map Prod.fst).Nodup by
    exact h [] (by simp)
  induction l with
  | nil => intro acc hacc; simpa using hacc
  | cons p ps ih =>
    intro acc hacc
    exact ih _ (nodup_keys_pyDictUpdate _ _ _ hacc)

theorem lookup_eq_none_of_not_mem {α β : Type} [DecidableEq α]
    (d : List (α × β)) (k : α) (h : k ∉ d.map Prod.fst) :
    d.lookup k = none := by
  induction d with
  | nil => rfl
  | cons p t ih =>
    simp only [List.map_cons, List.mem_cons, not_or] at h
    have hb : (k == p.1) = false := beq_eq_false_iff_ne.mpr h.1
    obtain ⟨a, b⟩ := p
    rw [List.lookup_cons]
    simp only at hb
    rw [hb]
    exact ih h.2

theorem lookup_isSome_of_mem {α β : Type} [DecidableEq α]
    (d : List (α × β)) (k : α) (h : k ∈ d.map Prod.fst) :
    ∃ b, d.lookup k = some b := by
  induction d with
  | nil => simp at h
  | cons p t ih =>
    obtain ⟨a, b⟩ := p
    rw [List.lookup_cons]
    by_cases hk : k = a
    · subst hk; simp
    · have hb : (k == a) = false := beq_eq_false_iff_ne.mpr hk
      rw [hb]
      simp only [List.map_cons, List.mem_cons] at h
      exact ih (h.resolve_left hk)

theorem lookup_map_replace {α β : Type} [DecidableEq α]
    (d : List (α × β)) (k0 k : α) (v : β) :
    (d.map (fun p => if p.1 = k0 then (p.1, v) else p)).lookup k
      = if k = k0 then (d.lookup k0).map (fun _ => v) else d.lookup k := by
  induction d with
  | nil => by_cases h : k = k0 <;> simp [h, List.lookup]
  | cons p t ih =>
    obtain ⟨a, b⟩ := p
    by_cases h1 : a = k0
    · subst h1
      by_cases h2 : k = a
      · subst h2
        simp [List.lookup_cons]
      · have hb : (k == a) = false := beq_eq_false_iff_ne.mpr h2
        simp [List.lookup_cons, hb, ih, h2]
    · by_cases h2 : k = a
      · subst h2
        simp [List.lookup_cons, h1]
      · have hb : (k == a) = false := beq_eq_false_iff_ne.mpr h2
        have hb0 : (k0 == a) = false := beq_eq_false_iff_ne.mpr (fun he => h1 he.symm)
        simp [List.lookup_cons, h1, hb, hb0, ih]

theorem lookup_pyDictUpdate {α β : Type} [DecidableEq α]
    (d : List (α × β)) (k0 k : α) (v : β) :
    (pyDictUpdate d k0 v).lookup k = if k = k0 then some v else d.lookup k := by
  unfold pyDictUpdate
  split
  case isTrue hc =>
    rw [lookup_map_replace]
    by_cases h : k = k0
    · obtain ⟨b, hb⟩ := lookup_isSome_of_mem d k0 (List.elem_iff.mp hc)
      simp [h, hb]
    · simp [h]
  case isFalse hc =>
    rw [List.lookup_append]
    by_cases h : k = k0
    · subst h
      rw [lookup_eq_none_of_not_mem d k (fun hm => hc (List.elem_iff.mpr hm))]
      simp [List.lookup_cons]
    · have hb : (k == k0) = false := beq_eq_false_iff_ne.mpr h
      simp [List.lookup_cons, hb, h]

theorem pyDictOfList_append_singleton {α β : Type} [DecidableEq α]
    (l : List (α × β)) (p : α × β) :
    pyDictOfList (l ++ [p]) = pyDictUpdate (pyDictOfList l) p.1 p.2 := by
  simp [pyDictOfList, List.foldl_append]

/-- The Python dict built left to right answers lookups like the reversed
binding list: the LAST binding for a key wins. -/
theorem lookup_pyDictOfList {α β : Type} [DecidableEq α]
    (l : List (α × β)) (k : α) :
    (pyDictOfList l).lookup k = l.reverse.lookup k := by
  induction l using List.reverseRecOn with
  | nil => rfl
  | append_singleton t p ih =>
    rw [pyDictOfList_append_singleton, lookup_pyDictUpdate,
      List.reverse_append]
    obtain ⟨a, b⟩ := p
    simp only [List.reverse_cons, List.reverse_nil, List.nil_append,
      List.cons_append, List.lookup_cons]
    by_cases h : k = a
    · subst h; simp
    · have hb : (k == a) = false := beq_eq_false_iff_ne.mpr h
      simp [hb, h, ih]

theorem length_pyDictOfList_lt {α β : Type} [DecidableEq α]
    (l : List (α × β)) (hdup : ¬ (l.map Prod.fst).Nodup) :
    (pyDictOfList l).length < l.length := by
  have hlen : (pyDictOfList l).length = ((pyDictOfList l).map Prod.fst).length :=
    (List.length_map _ _).symm
  have hperm : ((pyDictOfList l).map Prod.fst).Perm (l.map Prod.fst).dedup := by
    refine List.perm_of_nodup_nodup_toFinset_eq (nodup_keys_pyDictOfList l)
      (List.nodup_dedup _) ?_
    ext x
    rw [List.mem_toFinset, List.mem_toFinset, mem_keys_pyDictOfList,
      List.mem_dedup]
  have hle : (l.map Prod.fst).dedup.length ≤ (l.map Prod.fst).length :=
    (List.dedup_sublist _).length_le
  have hne : (l.map Prod.fst).dedup.length ≠ (l.map Prod.fst).length := by
    intro he
    exact hdup ((List.dedup_sublist _).eq_of_length he ▸ List.nodup_dedup _)
  have := lt_of_le_of_ne hle hne
  rw [hlen, hperm.length_eq]
  simpa using this

theorem length_cumsumFrom (l : List Nat) : ∀ acc, (cumsumFrom acc l).length = l.length := by
  induction l with
  | nil => intro acc; rfl
  | cons x xs ih => intro acc; simp [cumsumFrom, ih]

theorem cumsumFrom_chain (l : List Nat) : ∀ acc, List.Chain' (· ≤ ·) (cumsumFrom acc l) := by
  induction l with
  | nil => intro acc; simp [cumsumFrom]
  | cons x xs ih =>
    intro acc
    cases xs with
    | nil => simp [cumsumFrom]
    | cons y t =>
      rw [cumsumFrom, cumsumFrom]
      refine List.chain'_cons.mpr ⟨Nat.le_add_right _ _, ?_⟩
      have h := ih (acc + x)
      rw [cumsumFrom] at h
      exact h

theorem cumsumFrom_replicate (n : Nat) : ∀ acc,
    cumsumFrom acc (List.replicate n 1) = (List.range n).map (fun i => acc + i + 1) := by
  induction n with
  | zero => intro acc; rfl
  | succ m ih =>
    intro acc
    rw [List.replicate_succ, cumsumFrom, ih (acc + 1)]
    rw [List.range_succ_eq_map]
    simp only [List.map_cons, List.map_map]
    refine congrArg₂ _ (by omega) ?_
    refine List.map_congr_left (fun i _ => ?_)
    simp only [Function.comp]
    omega

/-- Claim C1: for the table of exactly three users whose recipes mappings are
`{}`, `{r1: {inprogress: true}}` and `{r1: {cookedBefore: true}}`, the
engagement aggregation yields the three buckets with one user each. -/
theorem recipe_engagement_example :
    plot_cooked_or_viewed_recipes
      [some [], some [("r1", ⟨none, some true⟩)], some [("r1", ⟨some true, none⟩)]] =
    .ok [("Never entered cook mode", 1),
         ("Recipe in progress, but never completed any", 1),
         ("Completed at least 1 recipe", 1)] := by
  rfl

/-- Claim C2, counterexample: a user with a non-empty recipes mapping in which
no recipe has a truthy `cookedBefore` flag and no recipe has a truthy
`inprogress` flag is assigned no bucket at all (the Python function falls
through and returns `None`), not one of the three buckets. -/
theorem recipe_status_fallthrough :
    get_user_recipe_status [("r1", ⟨some false, some false⟩)] = none := by
  decide

/-- Claim C2, amended: the classification assigns a bucket iff the recipes
mapping is empty or some recipe has a truthy `cookedBefore` or `inprogress`
flag; whenever a bucket is assigned it is one of the three labels.  A
non-empty mapping with no truthy flag yields `None` (and `value_counts`
drops that user from the chart). -/
theorem recipe_status_buckets (d : RecipesDict) :
    ((get_user_recipe_status d).isSome
        = (d.isEmpty || any_cooked_before d || any_inprog d))
    ∧ get_user_recipe_status d ∈
        [none, some "Never entered cook mode",
         some "Recipe in progress, but never completed any",
         some "Completed at least 1 recipe"] := by
  constructor
  · by_cases h : d = []
    · subst h; simp [get_user_recipe_status]
    · cases hc : any_cooked_before d <;> cases hi : any_inprog d <;>
        simp [get_user_recipe_status, h, hc, hi, List.isEmpty_iff]
  · unfold get_user_recipe_status
    split
    · simp
    · split
      · simp
      · split <;> simp

/-- Claim C4: every user whose recipes mapping contains at least one recipe
with a true `cookedBefore` flag is classified "Completed at least 1 recipe",
regardless of any `inprogress` flags. -/
theorem recipe_status_completed (d : RecipesDict)
    (h : ∃ p ∈ d, p.2.cookedBefore = some true) :
    get_user_recipe_status d = some "Completed at least 1 recipe" := by
  obtain ⟨p, hp, hcook⟩ := h
  have hne : d ≠ [] := by rintro rfl; exact absurd hp (List.not_mem_nil p)
  have hany : any_cooked_before d = true := by
    unfold any_cooked_before
    rw [List.any_eq_true]
    exact ⟨p.2.cookedBefore, List.mem_map_of_mem _ hp, by rw [hcook]; rfl⟩
  simp [get_user_recipe_status, hne, hany]

/-- Witness for C4 at a concrete input: one recipe cooked and in progress. -/
theorem recipe_status_completed_witness :
    get_user_recipe_status [("r1", ⟨some true, some true⟩)] =
      some "Completed at least 1 recipe" :=
  recipe_status_completed _ ⟨("r1", ⟨some true, some true⟩), by decide, rfl⟩

/-- Claim C3: the spec requires a user document that lacks the recipes or
skills field entirely to be tolerated, but such a document is a NaN cell in
the dataframe and each of the cited aggregations raises on it (valmap and
dict key access have no float attribute), instead of treating the field as
an empty mapping. -/
theorem missing_field_cell_raises :
    plot_cooked_or_viewed_recipes [none] = .error "AttributeError"
    ∧ plot_num_completed_recipes [none] = .error "AttributeError"
    ∧ plot_skill_hist [none] = .error "AttributeError" :=
  ⟨rfl, rfl, rfl⟩

/-- Claim C6: whenever the completed-recipe histogram is produced, the label 0
is not among its buckets and every bucket key is at least 1. -/
theorem completed_hist_no_zero_bucket (cells : List (Option RecipesDict))
    (h : List (Nat × Nat)) (hok : plot_num_completed_recipes cells = .ok h) :
    0 ∉ h.map Prod.fst ∧ h.all (fun p => decide (1 ≤ p.1)) = true := by
  cases happ : applyCells count_recipes cells with
  | error e =>
    have hred : plot_num_completed_recipes cells = .error e := by
      unfold plot_num_completed_recipes; rw [happ]
    rw [hred] at hok
    simp at hok
  | ok counts =>
    have hred : plot_num_completed_recipes cells = dropLabel0 (frequencies counts) := by
      unfold plot_num_completed_recipes; rw [happ]
    rw [hred] at hok
    unfold dropLabel0 at hok
    split at hok
    · simp only [Except.ok.injEq] at hok
      subst hok
      constructor
      · intro hmem
        obtain ⟨p, hp, hp0⟩ := List.mem_map.mp hmem
        have := (List.mem_filter.mp hp).2
        rw [hp0] at this
        exact absurd rfl (bne_iff_ne.mp this)
      · rw [List.all_eq_true]
        intro p hp
        have := bne_iff_ne.mp (List.mem_filter.mp hp).2
        simpa using Nat.pos_of_ne_zero this
    · simp at hok

/-- Witness for C6: two users, one with zero completed recipes and one with
one; the histogram succeeds and keeps only the bucket for count 1. -/
theorem completed_hist_no_zero_bucket_witness :
    0 ∉ [((1 : Nat), (1 : Nat))].map Prod.fst
    ∧ [((1 : Nat), (1 : Nat))].all (fun p => decide (1 ≤ p.1)) = true :=
  completed_hist_no_zero_bucket
    [some [], some [("r1", ⟨some true, none⟩)]] [(1, 1)] rfl

/-- Claim C9: on a table whose recipes cells are all present, the
completed-recipe histogram succeeds iff some user has exactly zero completed
recipes; otherwise `drop(0)` raises a KeyError. -/
theorem completed_hist_succeeds_iff_zero (rows : List RecipesDict) :
    ((plot_num_completed_recipes (rows.map some)).isOk = true
        ↔ 0 ∈ rows.map count_recipes)
    ∧ (0 ∉ rows.map count_recipes →
        plot_num_completed_recipes (rows.map some) = .error "KeyError") := by
  have hred : plot_num_completed_recipes (rows.map some)
      = dropLabel0 (frequencies (rows.map count_recipes)) := by
    simp only [plot_num_completed_recipes, applyCells_map_some]
  have hmem : (((frequencies (rows.map count_recipes)).map Prod.fst).contains 0 = true)
      ↔ 0 ∈ rows.map count_recipes :=
    List.elem_iff.trans (mem_keys_frequencies _ 0)
  constructor
  · rw [hred]
    unfold dropLabel0
    split
    case isTrue hcont => exact iff_of_true rfl (hmem.mp hcont)
    case isFalse hcont =>
      exact iff_of_false (by decide) (fun hm => hcont (hmem.mpr hm))
  · intro hnot
    rw [hred]
    unfold dropLabel0
    rw [if_neg (fun hcont => hnot (hmem.mp hcont))]

/-- Witness for C9: a single user with one completed recipe, so no user has
count zero; the pipeline raises the KeyError. -/
theorem completed_hist_succeeds_iff_zero_witness :
    plot_num_completed_recipes ([[("r1", RecipeEntry.mk (some true) none)]].map some)
      = .error "KeyError" :=
  (completed_hist_succeeds_iff_zero [[("r1", RecipeEntry.mk (some true) none)]]).2
    (by decide)

/-- Claim C7: whenever the skill-level histogram is produced from a table with
at least one per-user, per-skill score, the bucket proportions sum to 1. -/
theorem skill_hist_sums_to_one (cells : List (Option SkillsDict))
    (ps : List (Option Nat × ℚ)) (hok : plot_skill_hist cells = .ok ps)
    (hne : ∃ d, some d ∈ cells ∧ d ≠ []) :
    (ps.map Prod.snd).sum = 1 := by
  obtain ⟨d, hd, hdne⟩ := hne
  unfold plot_skill_hist at hok
  cases happ : applyCells (fun d => d.map (fun p => p.2.score)) cells with
  | error e => rw [happ] at hok; simp at hok
  | ok skill_levels =>
    rw [happ] at hok
    simp only [Except.ok.injEq] at hok
    subst hok
    have hmemd : d.map (fun p => p.2.score) ∈ skill_levels :=
      applyCells_ok_mem _ happ hd
    have hflat : skill_levels.flatten ≠ [] := by
      intro hnil
      exact hdne (List.map_eq_nil_iff.mp (List.flatten_eq_nil_iff.mp hnil _ hmemd))
    have hNpos :
        ((frequencies skill_levels.flatten).map Prod.snd).sum ≠ 0 := by
      intro hzero
      obtain ⟨x, hx⟩ := List.exists_mem_of_ne_nil _ hflat
      have hxk : x ∈ (frequencies skill_levels.flatten).map Prod.fst :=
        (mem_keys_frequencies _ x).mpr hx
      obtain ⟨p, hp, _⟩ := List.mem_map.mp hxk
      have hp2 : p.2 = 0 :=
        List.sum_eq_zero_iff.mp hzero _ (List.mem_map_of_mem Prod.snd hp)
      have := frequencies_snd_pos _ p hp
      omega
    have hdiv : ∀ (l : List Nat) (q : ℚ),
        (List.map (fun c : Nat => (c : ℚ) / q) l).sum = ((l.sum : ℚ)) / q := by
      intro l q
      induction l with
      | nil => simp
      | cons a t ih => simp [ih, add_div]
    rw [List.map_map]
    have hswap :
        List.map (Prod.snd ∘ fun p : Option Nat × Nat =>
            (p.1, (p.2 : ℚ) /
              ((List.map Prod.snd (frequencies skill_levels.flatten)).sum : ℚ)))
          (frequencies skill_levels.flatten)
          = List.map (fun c : Nat => (c : ℚ) /
              ((List.map Prod.snd (frequencies skill_levels.flatten)).sum : ℚ))
            (List.map Prod.snd (frequencies skill_levels.flatten)) := by
      rw [List.map_map]; rfl
    rw [hswap, hdiv]
    exact div_self (Nat.cast_ne_zero.mpr hNpos)

/-- Witness for C7: one user with a single skill at score 2; the histogram is
one bucket with proportion 1. -/
theorem skill_hist_sums_to_one_witness :
    ([((some 2 : Option Nat), (1 : ℚ))].map Prod.snd).sum = 1 :=
  skill_hist_sums_to_one [some [("s1", ⟨some 2⟩)]] [(some 2, 1)]
    (by
      have h1 : plot_skill_hist [some [("s1", ⟨some 2⟩)]]
          = .ok [((some 2 : Option Nat), ((1 : Nat) : ℚ) / ((1 : Nat) : ℚ))] := rfl
      rw [h1]
      norm_num)
    ⟨[("s1", ⟨some 2⟩)], by simp, by simp⟩

/-- Claim C5, counterexample: a pull in the deployed configuration (`dev` is
false, app.py line 18) writes no file at all, in particular no dated
snapshot file exists afterwards that did not exist before; the dated .hkl
files under data/ are not produced by `pull_latest_data`. -/
theorem pull_writes_nothing_counterexample :
    (pull_latest_data false none [⟨"u1"⟩]).2 = [] := rfl

/-- Claim C5, amended: a pull never writes a dated snapshot file; the only
file a pull can ever write is the fixed-name dev cache `user_data.hkl`, and
with `dev` false a pull writes nothing. -/
theorem pull_writes_only_dev_cache (dev : Bool)
    (cacheFile : Option (List (String × UserDoc))) (stream : List UserDoc) :
    (((pull_latest_data dev cacheFile stream).2.map Prod.fst).all
        (fun n => n == "user_data.hkl")) = true
    ∧ (dev = false → (pull_latest_data dev cacheFile stream).2 = []) := by
  unfold pull_latest_data
  cases dev <;> cases cacheFile <;> simp

/-- Witness for the amended C5 at a concrete non-dev pull of one user. -/
theorem pull_writes_only_dev_cache_witness :
    (((pull_latest_data false none [⟨"u1"⟩]).2.map Prod.fst).all
        (fun n => n == "user_data.hkl")) = true
    ∧ (pull_latest_data false none [⟨"u1"⟩]).2 = [] :=
  ⟨(pull_writes_only_dev_cache false none [⟨"u1"⟩]).1,
   (pull_writes_only_dev_cache false none [⟨"u1"⟩]).2 rfl⟩

/-- Claim C8: the cumulative signup series is monotonically non-decreasing,
has one value per row, and on a non-empty table its final value is the total
number of rows. -/
theorem signups_cumulative (creationDates : List Nat) :
    List.Chain' (· ≤ ·) ((plot_signups creationDates).map Prod.snd)
    ∧ ((plot_signups creationDates).map Prod.snd).length = creationDates.length
    ∧ (creationDates ≠ [] →
        ((plot_signups creationDates).map Prod.snd).getLast?
          = some creationDates.length) := by
  have hys : (plot_signups creationDates).map Prod.snd
      = cumsumFrom 0 (List.replicate creationDates.length 1) := by
    unfold plot_signups
    rw [List.length_mergeSort]
    exact List.map_snd_zip _ _
      (by simp [length_cumsumFrom, List.length_replicate, List.length_mergeSort])
  refine ⟨?_, ?_, ?_⟩
  · rw [hys]; exact cumsumFrom_chain _ 0
  · rw [hys, length_cumsumFrom, List.length_replicate]
  · intro hne
    obtain ⟨m, hm⟩ : ∃ m, creationDates.length = m + 1 := by
      cases creationDates with
      | nil => exact absurd rfl hne
      | cons a t => exact ⟨t.length, rfl⟩
    rw [hys, hm, cumsumFrom_replicate, List.range_succ, List.map_append]
    simp only [List.map_cons, List.map_nil]
    rw [List.getLast?_concat]
    simp

/-- Witness for C8 on the two-row table with dates 5 and 3: the series ends
at 2. -/
theorem signups_cumulative_witness :
    ((plot_signups [5, 3]).map Prod.snd).getLast? = some 2 :=
  (signups_cumulative [5, 3]).2.2 (by decide)

theorem resolve_zip_collision (catalog : String → String)
    (counts : List (String × Nat))
    (hdup : ¬ (counts.map (fun p => catalog p.1)).Nodup) :
    (pyDictOfList ((counts.map (fun p => catalog p.1)).zip
        (counts.map Prod.snd))).length < counts.length
    ∧ (fun n => (pyDictOfList ((counts.map (fun p => catalog p.1)).zip
          (counts.map Prod.snd))).lookup n)
        = (fun n => (counts.map (fun p => (catalog p.1, p.2))).reverse.lookup n) := by
  have hz : (counts.map (fun p => catalog p.1)).zip (counts.map Prod.snd)
      = counts.map (fun p => (catalog p.1, p.2)) := List.zip_map' _ _ _
  rw [hz]
  constructor
  · have hkeys : (counts.map (fun p => (catalog p.1, p.2))).map Prod.fst
        = counts.map (fun p => catalog p.1) := by
      rw [List.map_map]; rfl
    have hlt := length_pyDictOfList_lt (counts.map (fun p => (catalog p.1, p.2)))
      (by rw [hkeys]; exact hdup)
    simpa using hlt
  · funext n
    exact lookup_pyDictOfList _ n

/-- Claim C10: when distinct content ids resolve to the same display name,
the name-keyed dictionaries behind the popular-recipes and popular-skills
charts keep only the LAST count inserted for that name (earlier counts are
overwritten, not summed: lookups behave like the reversed binding list) and
the charts end up with fewer entries than there are distinct ids. -/
theorem popular_charts_name_collision (catalog : String → String)
    (rcells : List RecipesDict) (scells : List SkillsDict)
    (hr : ¬ ((frequencies (rcells.map (fun d => d.map Prod.fst)).flatten).map
        (fun p => catalog p.1)).Nodup)
    (hs : ¬ ((frequencies (scells.map (fun d => d.map Prod.fst)).flatten).map
        (fun p => catalog p.1)).Nodup) :
    ((most_popular_recipes catalog rcells).length
        < (frequencies (rcells.map (fun d => d.map Prod.fst)).flatten).length
      ∧ (fun n => (most_popular_recipes catalog rcells).lookup n)
          = (fun n =>
              ((frequencies (rcells.map (fun d => d.map Prod.fst)).flatten).map
                (fun p => (catalog p.1, p.2))).reverse.lookup n))
    ∧ ((most_popular_skills catalog scells).length
        < (frequencies (scells.map (fun d => d.map Prod.fst)).flatten).length
      ∧ (fun n => (most_popular_skills catalog scells).lookup n)
          = (fun n =>
              ((frequencies (scells.map (fun d => d.map Prod.fst)).flatten).map
                (fun p => (catalog p.1, p.2))).reverse.lookup n)) := by
  have h1 := resolve_zip_collision catalog
    (frequencies (rcells.map (fun d => d.map Prod.fst)).flatten) hr
  have h2 := resolve_zip_collision catalog
    (frequencies (scells.map (fun d => d.map Prod.fst)).flatten) hs
  exact ⟨⟨h1.1, h1.2⟩, ⟨h2.1, h2.2⟩⟩

/-- Witness for C10: two users, ids a and b, a catalog sending both ids to
the same name; the recipes chart keeps a single entry though there are two
distinct ids. -/
theorem popular_charts_name_collision_witness :
    (most_popular_recipes (fun _ => "N")
        [[("a", ⟨none, none⟩)], [("b", ⟨none, none⟩)]]).length < 2 := by
  have h := popular_charts_name_collision (fun _ => "N")
    [[("a", ⟨none, none⟩)], [("b", ⟨none, none⟩)]]
    [[("a", ⟨none⟩)], [("b", ⟨none⟩)]]
    (by decide) (by decide)
  have h2 : (frequencies
      (([[("a", (⟨none, none⟩ : RecipeEntry))], [("b", ⟨none, none⟩)]]).map
        (fun d => d.map Prod.fst)).flatten).length = 2 := rfl
  exact h2 ▸ h.1.1
